import Mathlib

/-!
Verification of the appconfig configuration-binding library.

The development shallowly embeds the field-binding engine (`Load`,
`scanner.scan`, `scanner.lookup`), the error type (`Error`) and the
source adapters (`envSrc`, `mapSrc`, `errSrc`, `FromReader`, `FromFile`)
of the Go package `github.com/dmotylev/appconfig`.

External effects are made explicit parameters:
the process environment becomes a function `String → Option String`
(the contract of `os.LookupEnv`), a byte stream becomes the list of
lines produced by `bufio.Scanner`, and opening a file becomes an
`Option` of the stream's contents.  The standard-library parsers for
floating point numbers, durations and timestamps (`strconv.ParseFloat`,
`time.ParseDuration`, `time.Parse`) are kept abstract in a `Parsers`
record, since their exact semantics (IEEE floats, calendar layouts) are
outside this model; the base-10 integer and boolean parsers
(`strconv.ParseUint`, `strconv.ParseInt`, `strconv.ParseBool`) are
embedded concretely.  Parse-error values are abstracted to their
message strings.
-/

namespace Appconfig

/-- Runtime value stored in a struct field.  Floating point and
timestamp values are abstract bit patterns (an `Int`), matching the
abstract parsers below; `reflect.Value.SetUint` / `SetInt` / etc. become
writes of the corresponding constructor. -/
inductive Value where
  | vStr (s : String)
  | vUint (n : Nat)
  | vInt (n : Int)
  | vFloat (bits : Int)
  | vBool (b : Bool)
  | vTime (t : Int)
  | vOther
deriving DecidableEq

/-- Field kind as dispatched by the `switch f.Kind()` in `scanner.scan`.
`kindName` records `reflect.Kind.String()` (for example "uint64"),
`bits` records `f.Type().Bits()`, and the `typeName` arguments record
`f.Type().Name()` which the source consults to detect `time.Duration`
(int kinds) and `time.Time` (struct kind).  Kinds outside the switch
(slices, maps, pointers, ...) are `otherK`. -/
inductive FieldKind where
  | strK
  | uintK (kindName : String) (bits : Nat)
  | intK (kindName : String) (bits : Nat) (typeName : String)
  | floatK (kindName : String) (bits : Nat)
  | boolK
  | structK (typeName : String)
  | otherK (kindName : String)
deriving DecidableEq

/-- The string `f.Kind().String()` used when building an `Error`. -/
def FieldKind.kindString : FieldKind → String
  | .strK => "string"
  | .uintK kn _ => kn
  | .intK kn _ _ => kn
  | .floatK kn _ => kn
  | .boolK => "bool"
  | .structK _ => "struct"
  | .otherK kn => kn

/-- One field of the destination struct: the data of
`reflect.StructField` (name, tags) together with settability
(`reflect.Value.CanSet`) and the field's current value.  A struct tag
is `none` when absent; `reflect.StructTag.Get` of an absent tag is the
empty string (see `tagGet`). -/
structure Field where
  name : String
  canSet : Bool
  kind : FieldKind
  defaultTag : Option String
  timeFormatTag : Option String
  value : Value
deriving DecidableEq

/-- ASCII lowercase mapping of one character. -/
def charToLower (c : Char) : Char :=
  if 65 ≤ c.toNat ∧ c.toNat ≤ 90 then Char.ofNat (c.toNat + 32) else c

/-- ASCII uppercase mapping of one character. -/
def charToUpper (c : Char) : Char :=
  if 97 ≤ c.toNat ∧ c.toNat ≤ 122 then Char.ofNat (c.toNat - 32) else c

/-- Embedding of `strings.ToLower` on the ASCII fragment the adapters
use for keys. -/
def strToLower (s : String) : String := String.mk (s.data.map charToLower)

/-- Embedding of `strings.ToUpper` on the ASCII fragment the adapters
use for keys. -/
def strToUpper (s : String) : String := String.mk (s.data.map charToUpper)

/-- Translation of `reflect.StructTag.Get`: an absent tag reads as "". -/
def tagGet : Option String → String
  | none => ""
  | some s => s

/-- Write a new value into a field, leaving its metadata intact
(the `reflect.Value.Set*` calls in `scanner.scan`). -/
def setValue (f : Field) (v : Value) : Field :=
  ⟨f.name, f.canSet, f.kind, f.defaultTag, f.timeFormatTag, v⟩

/-- Replace a field's default tag, leaving everything else intact
(used only to state that `default:""` behaves like an absent tag). -/
def setDefaultTag (f : Field) (d : Option String) : Field :=
  ⟨f.name, f.canSet, f.kind, d, f.timeFormatTag, f.value⟩

/-- Destination struct value: its type name (`vStruct.Type().Name()`)
and its fields in declaration order. -/
structure Record where
  typeName : String
  fields : List Field
deriving DecidableEq

/-- Destination argument of `Load`.  `ptrToStruct` is a pointer to a
struct (so `reflect.Indirect(reflect.ValueOf(v)).Kind()` is
`reflect.Struct`); `nonStruct` is any destination whose indirect kind
is not a struct (for example a bare `int`), carrying that kind's name. -/
inductive Dest where
  | ptrToStruct (r : Record)
  | nonStruct (kindName : String)

/-- The structured field error `Error` of the source: record type name,
field name, field kind name, raw string value, and the underlying parse
error (abstracted to its message). -/
structure Error where
  typ : String
  fld : String
  kind : String
  val : String
  cause : String
deriving DecidableEq

/-- A value returned through Go's `error` interface by `scan`: either a
source's own terminal error or a pointer to an `Error`. -/
inductive BindError where
  | src (e : String)
  | field (e : Error)
deriving DecidableEq

/-- Outcome of `Load`: a panic (non-struct destination), success, or a
returned error; `ok` and `err` carry the final state of the record,
since the Go code mutates it in place. -/
inductive LoadResult where
  | panicked (msg : String)
  | ok (r : Record)
  | err (e : BindError) (r : Record)
deriving DecidableEq

/-- A `Source`: the three implementations of the interface in the
source — `envSrc` (field `prefix`, queries the process environment),
`mapSrc` (map built by `FromReader` / `FromMap`; a `nil` Go map is the
constant-`none` function), and `errSrc` (wraps a terminal error). -/
inductive Source where
  | envSrc (pfx : String)
  | mapSrc (m : String → Option String)
  | errSrc (e : String)

/-- Method `Err` of the three `Source` implementations: `envSrc` and
`mapSrc` return nil, `errSrc` returns its wrapped error. -/
def Source.Err : Source → Option String
  | .envSrc _ => none
  | .mapSrc _ => none
  | .errSrc e => some e

/-- Method `Lookup`.  `envSrc.Lookup` returns
`os.LookupEnv(strings.ToUpper(s.prefix + f.Name))` — the pair is
`(value, true)` when the variable exists (even with an empty value) and
`("", false)` otherwise.  `mapSrc.Lookup` reads the map at
`strings.ToLower(f.Name)`.  `errSrc.Lookup` is constantly not found. -/
def Source.Lookup (environ : String → Option String) : Source → Field → String × Bool
  | .envSrc pfx, f =>
      match environ (strToUpper (pfx ++ f.name)) with
      | some v => (v, true)
      | none => ("", false)
  | .mapSrc m, f =>
      match m (strToLower f.name) with
      | some v => (v, true)
      | none => ("", false)
  | .errSrc _, _ => ("", false)

/-- Split a line at its first '=' character, returning the key (the
characters before it) and the value (everything after it); `none` when
the line has no '='.  This is the submatch structure of the regular
expression `^([^=]+)=(.*)$` except for the non-emptiness of the key,
checked in `parseLine`. -/
def splitFirstEq : List Char → Option (List Char × List Char)
  | [] => none
  | c :: rest =>
      if c = '=' then some ([], rest)
      else
        match splitFirstEq rest with
        | none => none
        | some (k, v) => some (c :: k, v)

/-- One line of a stream as processed by `FromReader`: `some (key,
value)` with the key lowercased when the line matches `^([^=]+)=(.*)$`,
`none` otherwise (no '=' at all, or an empty key). -/
def parseLine (l : String) : Option (String × String) :=
  match splitFirstEq l.data with
  | none => none
  | some (k, v) =>
      if k = [] then none
      else some (strToLower (String.mk k), String.mk v)

/-- Go map update `m[k] = v`. -/
def mapUpdate (m : String → Option String) (k v : String) : String → Option String :=
  fun x => if x = k then some v else m x

/-- One iteration of `FromReader`'s scan loop: a line matching the
key=value pattern updates the map at its lowercased key, any other
line leaves the map unchanged. -/
def readerStep (m : String → Option String) (l : String) : String → Option String :=
  match parseLine l with
  | none => m
  | some kv => mapUpdate m kv.1 kv.2

/-- The map accumulated by `FromReader`'s scan loop over the lines of
the stream, in order, starting from the empty map. -/
def readerMap (lines : List String) : String → Option String :=
  lines.foldl readerStep (fun _ => none)

/-- Function `FromMap`. -/
def FromMap (m : String → Option String) : Source :=
  Source.mapSrc m

/-- Function `FromReader`: scans the stream's lines into a map; if the
scanner finished with a read error, the result is the error-wrapping
source, otherwise `FromMap` of the accumulated map.  `readErr` is the
value of `bufio.Scanner.Err()` after the loop. -/
def FromReader (lines : List String) (readErr : Option String) : Source :=
  let m := readerMap lines
  match readErr with
  | some e => Source.errSrc e
  | none => FromMap m

/-- Function `FromFile`: `openResult` is the outcome of `os.Open` —
`none` when the path cannot be opened, in which case the result is
`FromMap(nil)`; otherwise the opened file's lines and read-error state
are fed to `FromReader`. -/
def FromFile (openResult : Option (List String × Option String)) : Source :=
  match openResult with
  | none => FromMap (fun _ => none)
  | some lr => FromReader lr.1 lr.2

/-- Test for an ASCII decimal digit. -/
def isDigitChar (c : Char) : Bool :=
  48 ≤ c.toNat && c.toNat ≤ 57

/-- Numeric value of a base-10 digit sequence. -/
def digitsVal (cs : List Char) : Nat :=
  cs.foldl (fun a c => a * 10 + (c.toNat - 48)) 0

/-- Embedding of `strconv.ParseUint(s, 10, bits)`: only base-10 digits,
no sign, empty string is a syntax error, values above `2^bits - 1` are
a range error. -/
def parseUint (s : String) (bits : Nat) : Except String Nat :=
  if s.data.isEmpty then Except.error "invalid syntax"
  else if s.data.all isDigitChar then
    let n := digitsVal s.data
    if n ≤ 2 ^ bits - 1 then Except.ok n else Except.error "value out of range"
  else Except.error "invalid syntax"

/-- Embedding of `strconv.ParseInt(s, 10, bits)`: an optional single
leading sign followed by base-10 digits; the signed range of width
`bits` is `[-2^(bits-1), 2^(bits-1) - 1]`. -/
def parseInt (s : String) (bits : Nat) : Except String Int :=
  match s.data with
  | [] => Except.error "invalid syntax"
  | c :: rest =>
      let neg := c = '-'
      let digits := if c = '-' ∨ c = '+' then rest else c :: rest
      if digits.isEmpty then Except.error "invalid syntax"
      else if digits.all isDigitChar then
        let n := digitsVal digits
        if neg then
          if n ≤ 2 ^ (bits - 1) then Except.ok (-(n : Int))
          else Except.error "value out of range"
        else
          if n ≤ 2 ^ (bits - 1) - 1 then Except.ok (n : Int)
          else Except.error "value out of range"
      else Except.error "invalid syntax"

/-- Embedding of `strconv.ParseBool`: the twelve accepted literals. -/
def parseBool (s : String) : Except String Bool :=
  match s with
  | "1" | "t" | "T" | "TRUE" | "true" | "True" => Except.ok true
  | "0" | "f" | "F" | "FALSE" | "false" | "False" => Except.ok false
  | _ => Except.error "invalid syntax"

/-- The layout string `time.UnixDate`, the fallback timestamp format. -/
def unixDate : String := "Mon Jan _2 15:04:05 MST 2006"

/-- Abstract standard-library parsers used by the conversion switch:
`parseFloat s bits` embeds `strconv.ParseFloat`, `parseDuration s`
embeds `time.ParseDuration` (yielding the `int64` count of
nanoseconds), and `parseTime layout s` embeds `time.Parse`.  Their
results are abstract bit patterns; the engine's theorems hold for every
instantiation. -/
structure Parsers where
  parseFloat : String → Nat → Except String Int
  parseDuration : String → Except String Int
  parseTime : String → String → Except String Int

/-- The `switch f.Kind()` conversion table of `scanner.scan` for one
resolved raw string: `Except.ok none` means the case writes nothing
(a non-`Time` struct, or a kind outside the switch), `Except.ok (some
v)` means the case writes `v`, and `Except.error cause` is a parse
failure.  Int kinds whose type name is `Duration` parse with the
duration grammar; struct kinds are only converted for type name `Time`,
using the `time,format` tag or `time.UnixDate` when the tag reads
empty. -/
def convert (P : Parsers) (k : FieldKind) (fmtTag : Option String) (vString : String) :
    Except String (Option Value) :=
  match k with
  | .strK => Except.ok (some (Value.vStr vString))
  | .uintK _ bits =>
      match parseUint vString bits with
      | Except.ok n => Except.ok (some (Value.vUint n))
      | Except.error e => Except.error e
  | .intK _ bits tn =>
      if tn = "Duration" then
        match P.parseDuration vString with
        | Except.ok d => Except.ok (some (Value.vInt d))
        | Except.error e => Except.error e
      else
        match parseInt vString bits with
        | Except.ok n => Except.ok (some (Value.vInt n))
        | Except.error e => Except.error e
  | .floatK _ bits =>
      match P.parseFloat vString bits with
      | Except.ok x => Except.ok (some (Value.vFloat x))
      | Except.error e => Except.error e
  | .boolK =>
      match parseBool vString with
      | Except.ok b => Except.ok (some (Value.vBool b))
      | Except.error e => Except.error e
  | .structK tn =>
      if tn = "Time" then
        let format := if tagGet fmtTag = "" then unixDate else tagGet fmtTag
        match P.parseTime format vString with
        | Except.ok t => Except.ok (some (Value.vTime t))
        | Except.error e => Except.error e
      else Except.ok none
  | .otherK _ => Except.ok none

/-- Method `scanner.lookup`: query the sources in order and return the
first `Lookup` result that reports found; `("", false)` when none
does. -/
def scannerLookup (environ : String → Option String) :
    List Source → Field → String × Bool
  | [], _ => ("", false)
  | src :: rest, f =>
      let res := Source.Lookup environ src f
      if res.2 then (res.1, true) else scannerLookup environ rest f

/-- Body of `scanner.scan`'s loop for one field: non-settable fields
are skipped; otherwise the raw string is resolved through the source
chain, falling back to the `default` tag, and a field that is neither
found nor carries a non-empty default is skipped; the resolved string
is then converted and written, a conversion failure producing the
structured `Error`. -/
def bindField (P : Parsers) (environ : String → Option String)
    (sources : List Source) (tn : String) (f : Field) : Except Error Field :=
  if !f.canSet then Except.ok f
  else
    let res := scannerLookup environ sources f
    let vString := if res.2 then res.1 else tagGet f.defaultTag
    if !res.2 && tagGet f.defaultTag = "" then Except.ok f
    else
      match convert P f.kind f.timeFormatTag vString with
      | Except.ok none => Except.ok f
      | Except.ok (some nv) => Except.ok (setValue f nv)
      | Except.error cause =>
          Except.error ⟨tn, f.name, f.kind.kindString, vString, cause⟩

/-- The field loop of `scanner.scan`, processing fields in declaration
order: on a conversion failure the loop stops, leaving the failing
field and all later fields untouched; the returned pair is the final
field list and the error, if any. -/
def scanFields (P : Parsers) (environ : String → Option String)
    (sources : List Source) (tn : String) :
    List Field → List Field × Option Error
  | [] => ([], none)
  | f :: rest =>
      match bindField P environ sources tn f with
      | Except.error e => (f :: rest, some e)
      | Except.ok f' =>
          let r := scanFields P environ sources tn rest
          (f' :: r.1, r.2)

/-- The terminal-error check at the top of `scanner.scan`: the `Err()`
of the first source reporting a non-nil error, in source order. -/
def firstErr : List Source → Option String
  | [] => none
  | s :: rest =>
      match Source.Err s with
      | some e => some e
      | none => firstErr rest

/-- Method `scanner.scan`: first return any source's terminal error
(in source order, before touching any field), then run the field loop
and surface its error, if any, together with the record's final
state. -/
def scan (P : Parsers) (environ : String → Option String)
    (sources : List Source) (r : Record) : LoadResult :=
  match firstErr sources with
  | some e => LoadResult.err (BindError.src e) r
  | none =>
      let res := scanFields P environ sources r.typeName r.fields
      match res.2 with
      | none => LoadResult.ok ⟨r.typeName, res.1⟩
      | some fe => LoadResult.err (BindError.field fe) ⟨r.typeName, res.1⟩

/-- Function `Load`: panic on a destination whose indirect kind is not
a struct, return success immediately (record untouched) for an empty
source list, otherwise scan. -/
def Load (P : Parsers) (environ : String → Option String)
    (v : Dest) (sources : List Source) : LoadResult :=
  match v with
  | Dest.nonStruct _ => LoadResult.panicked "scan for non-struct type"
  | Dest.ptrToStruct r =>
      if sources.isEmpty then LoadResult.ok r
      else scan P environ sources r

/-! Specification-side helper: the value of the last line of a stream
whose lowercased key is `k`, used to state what map `FromReader`
accumulates when later lines override earlier ones. -/

/-- Value paired with the last occurrence of key `k` in the list,
`none` when `k` does not occur. -/
def lastValue (k : String) : List (String × String) → Option String
  | [] => none
  | kv :: rest =>
      match lastValue k rest with
      | some v => some v
      | none => if k = kv.1 then some kv.2 else none

/-! Shared lemmas about the embedded definitions. -/

/-- Sources whose `Lookup` reports not found are transparent to the
source chain. -/
theorem scannerLookup_append (environ : String → Option String) (f : Field)
    (pre rest : List Source)
    (h : ∀ t ∈ pre, (Source.Lookup environ t f).2 = false) :
    scannerLookup environ (pre ++ rest) f = scannerLookup environ rest f := by
  induction pre with
  | nil => rfl
  | cons t ts ih =>
      have ht := h t (List.mem_cons_self t ts)
      simp only [List.cons_append, scannerLookup, ht, Bool.false_eq_true, if_false]
      exact ih fun u hu => h u (List.mem_cons_of_mem t hu)

/-- Sources whose `Err` is nil are transparent to the terminal-error
check. -/
theorem firstErr_append (pre rest : List Source)
    (h : ∀ t ∈ pre, Source.Err t = none) :
    firstErr (pre ++ rest) = firstErr rest := by
  induction pre with
  | nil => rfl
  | cons t ts ih =>
      have ht := h t (List.mem_cons_self t ts)
      simp only [List.cons_append, firstErr, ht]
      exact ih fun u hu => h u (List.mem_cons_of_mem t hu)

/-- A settable field that is found nowhere and whose default tag reads
empty is skipped unchanged. -/
theorem bindField_skip (P : Parsers) (environ : String → Option String)
    (sources : List Source) (tn : String) (f : Field)
    (hset : f.canSet = true)
    (hnf : (scannerLookup environ sources f).2 = false)
    (hd : tagGet f.defaultTag = "") :
    bindField P environ sources tn f = Except.ok f := by
  simp [bindField, hset, hnf, hd]

/-- A non-settable field is skipped unchanged. -/
theorem bindField_nonSettable (P : Parsers) (environ : String → Option String)
    (sources : List Source) (tn : String) (f : Field)
    (hset : f.canSet = false) :
    bindField P environ sources tn f = Except.ok f := by
  simp [bindField, hset]

/-- A source's `Lookup` consults only the field's name, so changing the
default tag does not affect it. -/
theorem Source.Lookup_setDefaultTag (environ : String → Option String)
    (src : Source) (f : Field) (d : Option String) :
    Source.Lookup environ src (setDefaultTag f d) = Source.Lookup environ src f := by
  cases src <;> rfl

/-- The source chain consults only the field's name, so changing the
default tag does not affect it. -/
theorem scannerLookup_setDefaultTag (environ : String → Option String)
    (sources : List Source) (f : Field) (d : Option String) :
    scannerLookup environ sources (setDefaultTag f d) = scannerLookup environ sources f := by
  induction sources with
  | nil => rfl
  | cons s ss ih => simp only [scannerLookup, Source.Lookup_setDefaultTag, ih]

/-- Appending fields after a prefix that the field loop processed
without error processes the prefix the same way and continues into the
suffix. -/
theorem scanFields_append (P : Parsers) (environ : String → Option String)
    (sources : List Source) (tn : String) (pre pre' l2 : List Field)
    (h : scanFields P environ sources tn pre = (pre', none)) :
    scanFields P environ sources tn (pre ++ l2) =
      (pre' ++ (scanFields P environ sources tn l2).1,
       (scanFields P environ sources tn l2).2) := by
  induction pre generalizing pre' with
  | nil =>
      have h1 : pre' = [] := by
        have := congrArg Prod.fst h
        simpa [scanFields] using this.symm
      subst h1
      simp
  | cons g gs ih =>
      cases hb : bindField P environ sources tn g with
      | error e =>
          rw [scanFields, hb] at h
          simp at h
      | ok g' =>
          rw [scanFields, hb] at h
          have h1 : g' :: (scanFields P environ sources tn gs).1 = pre' :=
            congrArg Prod.fst h
          have h2 : (scanFields P environ sources tn gs).2 = none :=
            congrArg Prod.snd h
          have hgs : scanFields P environ sources tn gs =
              ((scanFields P environ sources tn gs).1, none) := by
            rw [← h2]
          rw [List.cons_append, scanFields, hb, ih _ hgs, ← h1]
          simp

/-- Any error produced by the per-field step carries the record type
name, the field's name, the field's kind name, the resolved raw string
and the conversion failure's cause. -/
theorem bindField_error_shape (P : Parsers) (environ : String → Option String)
    (sources : List Source) (tn : String) (f : Field) (e : Error)
    (h : bindField P environ sources tn f = Except.error e) :
    ∃ v c, e = ⟨tn, f.name, f.kind.kindString, v, c⟩ ∧
      convert P f.kind f.timeFormatTag v = Except.error c := by
  simp only [bindField] at h
  split at h
  · exact absurd h (by simp)
  · split at h
    · exact absurd h (by simp)
    · split at h
      · exact absurd h (by simp)
      · exact absurd h (by simp)
      · rename_i cause hconv
        refine ⟨_, cause, ?_, hconv⟩
        injection h with h'
        exact h'.symm

/-- Folding the scan loop of `FromReader` over the stream's lines
computes, at every key, the value of the last matching line, falling
back to the initial accumulator. -/
theorem readerFold_lastValue (k : String) (lines : List String) :
    ∀ acc : String → Option String,
      (List.foldl readerStep acc lines) k =
        match lastValue k (lines.filterMap parseLine) with
        | some v => some v
        | none => acc k := by
  induction lines with
  | nil => intro acc; simp [lastValue]
  | cons l rest ih =>
      intro acc
      rw [List.foldl_cons, ih]
      cases hp : parseLine l with
      | none => simp [List.filterMap_cons, hp, readerStep]
      | some kv =>
          simp only [List.filterMap_cons, hp, lastValue]
          cases hl : lastValue k (rest.filterMap parseLine) with
          | some v => simp
          | none =>
              simp only [readerStep, hp, mapUpdate]
              by_cases hk : k = kv.1 <;> simp [hk]

/-- A character list without '=' has no key=value split. -/
theorem splitFirstEq_none (l : List Char) (h : ∀ c ∈ l, c ≠ '=') :
    splitFirstEq l = none := by
  induction l with
  | nil => rfl
  | cons c rest ih =>
      have hc : c ≠ '=' := h c (List.mem_cons_self c rest)
      simp only [splitFirstEq, if_neg hc,
        ih fun u hu => h u (List.mem_cons_of_mem c hu)]

/-- A line without '=' does not match the key=value pattern. -/
theorem parseLine_noEq (l : String) (h : ∀ c ∈ l.data, c ≠ '=') :
    parseLine l = none := by
  simp [parseLine, splitFirstEq_none l.data h]

/-! Concrete instances used by the witnesses. -/

/-- Parsers instance whose abstract components always fail; the claims
are insensitive to the choice. -/
def noParsers : Parsers :=
  ⟨fun _ _ => Except.error "unsupported",
   fun _ => Except.error "unsupported",
   fun _ _ => Except.error "unsupported"⟩

/-- An empty process environment. -/
def emptyEnv : String → Option String := fun _ => none

/-- A process environment where APP_STRING is set to the empty string. -/
def envEmptyVar : String → Option String :=
  fun k => if k = "APP_STRING" then some "" else none

/-- A settable string field named X. -/
def fieldX : Field := ⟨"X", true, FieldKind.strK, none, none, Value.vStr ""⟩

/-- A settable string field named String. -/
def fieldString : Field := ⟨"String", true, FieldKind.strK, none, none, Value.vStr ""⟩

/-- A settable 64-bit unsigned field named Uint. -/
def fieldUint : Field := ⟨"Uint", true, FieldKind.uintK "uint64" 64, none, none, Value.vUint 0⟩

/-- A settable field whose name matches no source key. -/
def fieldMissing : Field := ⟨"Missing", true, FieldKind.uintK "uint64" 64, none, none, Value.vUint 7⟩

/-- A settable string field carrying the tag default:"". -/
def fieldEmptyDefault : Field := ⟨"Name", true, FieldKind.strK, some "", none, Value.vStr "keep"⟩

/-- A map source with no entries. -/
def srcEmpty : Source := Source.mapSrc fun _ => none

/-- A map source binding x to a. -/
def srcXa : Source := Source.mapSrc fun k => if k = "x" then some "a" else none

/-- A map source binding x to b. -/
def srcXb : Source := Source.mapSrc fun k => if k = "x" then some "b" else none

/-- A map source binding string to ok and uint to the unparsable Err. -/
def srcFields : Source :=
  Source.mapSrc fun k =>
    if k = "string" then some "ok" else if k = "uint" then some "Err" else none

/-- A two-field record used as a bind destination. -/
def recFields : Record := ⟨"Fields", [fieldString, fieldUint]⟩

/-- A record with no default tags (one settable field, one not). -/
def recNoDefaults : Record :=
  ⟨"Conf", [fieldString, ⟨"hidden", false, FieldKind.strK, none, none, Value.vStr "z"⟩]⟩

/-! Claims. -/

/-- C1: for every settable field and every ordered source list, the
value bound to the field is the value returned by the first source (in
supplied order) whose Lookup reports found; a value held by any later
source is never used for that field, even when an earlier source also
has one.  Stated on the chain `scanner.lookup`: with every source
before `s` reporting not found and `s` reporting `(v, true)`, the chain
resolves to `v` regardless of the sources after `s`; consequently a
settable string field is written with exactly `v`. -/
theorem firstSourceFoundWins (environ : String → Option String)
    (pre : List Source) (s : Source) (post : List Source) (f : Field) (v : String)
    (hpre : ∀ t ∈ pre, (Source.Lookup environ t f).2 = false)
    (hs : Source.Lookup environ s f = (v, true)) :
    scannerLookup environ (pre ++ s :: post) f = (v, true)
    ∧ ∀ (P : Parsers) (tn : String), f.canSet = true → f.kind = FieldKind.strK →
        bindField P environ (pre ++ s :: post) tn f =
          Except.ok (setValue f (Value.vStr v)) := by
  have h1 : scannerLookup environ (pre ++ s :: post) f = (v, true) := by
    rw [scannerLookup_append environ f pre _ hpre]
    simp [scannerLookup, hs]
  refine ⟨h1, fun P tn hset hkind => ?_⟩
  simp [bindField, hset, h1, hkind, convert]

/-- Witness for C1: with sources [no-x-entry, x=a, x=b] the chain
resolves field X to a (never b), and binds the string field to a. -/
theorem firstSourceFoundWins_w :
    Source.Lookup emptyEnv srcXa fieldX = ("a", true)
    ∧ scannerLookup emptyEnv [srcEmpty, srcXa, srcXb] fieldX = ("a", true)
    ∧ bindField noParsers emptyEnv [srcEmpty, srcXa, srcXb] "Conf" fieldX =
        Except.ok (setValue fieldX (Value.vStr "a")) := by
  have h := firstSourceFoundWins emptyEnv [srcEmpty] srcXa [srcXb] fieldX "a"
    (by intro t ht; simp only [List.mem_singleton] at ht; subst ht; rfl) (by rfl)
  exact ⟨by rfl, h.1, h.2 noParsers "Conf" rfl rfl⟩

/-- C2: for every record and source list, if any source's Err() is
non-nil, Load returns the first such error in source order, before any
field of the record is mutated: the record in the result is the
pre-call record. -/
theorem loadSourceErrAborts (P : Parsers) (environ : String → Option String)
    (r : Record) (pre : List Source) (s : Source) (post : List Source) (e : String)
    (hpre : ∀ t ∈ pre, Source.Err t = none)
    (hs : Source.Err s = some e) :
    Load P environ (Dest.ptrToStruct r) (pre ++ s :: post) =
      LoadResult.err (BindError.src e) r := by
  have hfe : firstErr (pre ++ s :: post) = some e := by
    rw [firstErr_append pre _ hpre]
    simp [firstErr, hs]
  have hne : (pre ++ s :: post).isEmpty = false := by
    cases pre <;> rfl
  simp [Load, hne, scan, hfe]

/-- Witness for C2: an error-wrapping source after a clean map source
aborts the bind with that error and the record unchanged, although the
map source holds values for the record's fields. -/
theorem loadSourceErrAborts_w :
    Source.Err (Source.errSrc "boom") = some "boom"
    ∧ Load noParsers emptyEnv (Dest.ptrToStruct recFields)
        [srcFields, Source.errSrc "boom"] =
        LoadResult.err (BindError.src "boom") recFields := by
  have h := loadSourceErrAborts noParsers emptyEnv recFields [srcFields]
    (Source.errSrc "boom") [] "boom"
    (by intro t ht; simp only [List.mem_singleton] at ht; subst ht; rfl) rfl
  exact ⟨rfl, h⟩

/-- C8: for every destination whose indirect kind is not a struct,
Load panics (fail-fast) rather than returning an error or succeeding;
the panicked outcome is distinct from every returned-error outcome. -/
theorem loadNonStructPanics (P : Parsers) (environ : String → Option String)
    (kn : String) (sources : List Source) :
    Load P environ (Dest.nonStruct kn) sources =
      LoadResult.panicked "scan for non-struct type"
    ∧ (∀ e r', Load P environ (Dest.nonStruct kn) sources ≠ LoadResult.err e r')
    ∧ (∀ r', Load P environ (Dest.nonStruct kn) sources ≠ LoadResult.ok r') := by
  refine ⟨rfl, fun e r' h => ?_, fun r' h => ?_⟩ <;> simp [Load] at h

/-- C9: a settable field that no source finds is skipped when its
default tag is the empty string, exactly as when the tag is absent: in
both cases the field keeps its pre-call value, so a field cannot be
defaulted to the empty string. -/
theorem emptyDefaultTagLikeAbsent (P : Parsers) (environ : String → Option String)
    (sources : List Source) (tn : String) (f : Field)
    (hset : f.canSet = true)
    (hnf : (scannerLookup environ sources f).2 = false)
    (hd : f.defaultTag = some "") :
    bindField P environ sources tn f = Except.ok f
    ∧ bindField P environ sources tn (setDefaultTag f none) =
        Except.ok (setDefaultTag f none) := by
  constructor
  · exact bindField_skip P environ sources tn f hset hnf (by rw [hd]; rfl)
  · refine bindField_skip P environ sources tn _ hset ?_ rfl
    rw [scannerLookup_setDefaultTag]
    exact hnf

/-- Witness for C9: the field with tag default:"" keeps its pre-call
value keep, as does its absent-tag counterpart. -/
theorem emptyDefaultTagLikeAbsent_w :
    bindField noParsers emptyEnv [srcEmpty] "Conf" fieldEmptyDefault =
      Except.ok fieldEmptyDefault
    ∧ bindField noParsers emptyEnv [srcEmpty] "Conf" (setDefaultTag fieldEmptyDefault none) =
        Except.ok (setDefaultTag fieldEmptyDefault none) :=
  emptyDefaultTagLikeAbsent noParsers emptyEnv [srcEmpty] "Conf" fieldEmptyDefault
    rfl rfl rfl

/-- C10: for every struct destination, Load with an empty source list
returns success and leaves every field of the record at its pre-call
value. -/
theorem loadNoSourcesNoop (P : Parsers) (environ : String → Option String) (r : Record) :
    Load P environ (Dest.ptrToStruct r) [] = LoadResult.ok r := rfl

/-- C3: when conversion of a resolved raw string fails, Load stops at
that field and returns a structured error carrying the record type
name, field name, field kind name, the raw string and the underlying
parse error; the fields before the failing one keep their newly
written values (the processed prefix `pre'`), the failing field and
every field after it keep their pre-call values. -/
theorem loadConversionFailureStops (P : Parsers) (environ : String → Option String)
    (sources : List Source) (tn : String) (pre pre' : List Field) (f : Field)
    (post : List Field) (e : Error)
    (hne : sources ≠ [])
    (hsrc : firstErr sources = none)
    (hpre : scanFields P environ sources tn pre = (pre', none))
    (hf : bindField P environ sources tn f = Except.error e) :
    Load P environ (Dest.ptrToStruct ⟨tn, pre ++ f :: post⟩) sources =
      LoadResult.err (BindError.field e) ⟨tn, pre' ++ f :: post⟩
    ∧ ∃ v c, e = ⟨tn, f.name, f.kind.kindString, v, c⟩ ∧
        convert P f.kind f.timeFormatTag v = Except.error c := by
  refine ⟨?_, bindField_error_shape P environ sources tn f e hf⟩
  have hisE : sources.isEmpty = false := by
    cases sources with
    | nil => exact absurd rfl hne
    | cons a as => rfl
  have hfp : scanFields P environ sources tn (f :: post) = (f :: post, some e) := by
    rw [scanFields, hf]
  have happ := scanFields_append P environ sources tn pre pre' (f :: post) hpre
  rw [hfp] at happ
  simp [Load, hisE, scan, hsrc, happ]

/-- Witness for C3: binding [String, Uint, X] from a map where string
is ok and uint is the unparsable Err writes String, then stops at Uint
with the structured error; Uint and X keep their pre-call values. -/
theorem loadConversionFailureStops_w :
    bindField noParsers emptyEnv [srcFields] "Fields" fieldUint =
      Except.error ⟨"Fields", "Uint", "uint64", "Err", "invalid syntax"⟩
    ∧ Load noParsers emptyEnv
        (Dest.ptrToStruct ⟨"Fields", [fieldString, fieldUint, fieldX]⟩) [srcFields] =
        LoadResult.err
          (BindError.field ⟨"Fields", "Uint", "uint64", "Err", "invalid syntax"⟩)
          ⟨"Fields", [setValue fieldString (Value.vStr "ok"), fieldUint, fieldX]⟩ := by
  have h := loadConversionFailureStops noParsers emptyEnv [srcFields] "Fields"
    [fieldString] [setValue fieldString (Value.vStr "ok")] fieldUint [fieldX]
    ⟨"Fields", "Uint", "uint64", "Err", "invalid syntax"⟩
    (by simp) rfl (by rfl) (by rfl)
  exact ⟨by rfl, h.1⟩

/-- C4, the claim as stated is false on the code: `envSrc.Lookup` uses
`os.LookupEnv`, which reports found for a variable that exists with an
empty value, whereas the claim requires found iff the variable exists
and is non-empty.  Counterexample: environment {APP_STRING: ""}, prefix
app_, field String — Lookup reports found although the value is
empty. -/
theorem envLookupNonEmptyClaimFalse :
    ¬ (∀ (environ : String → Option String) (pfx : String) (f : Field),
        (Source.Lookup environ (Source.envSrc pfx) f).2 = true ↔
          ∃ v, environ (strToUpper (pfx ++ f.name)) = some v ∧ v ≠ "") := by
  intro h
  have hfound : (Source.Lookup envEmptyVar (Source.envSrc "app_") fieldString).2 = true := by
    rfl
  obtain ⟨v, hv, hvne⟩ := (h envEmptyVar "app_" fieldString).mp hfound
  have heq : strToUpper ("app_" ++ fieldString.name) = "APP_STRING" := by rfl
  rw [heq] at hv
  have h0 : envEmptyVar "APP_STRING" = some "" := rfl
  rw [h0] at hv
  exact hvne (Option.some.inj hv).symm

/-- C4, amended: the environment adapter's Lookup consults
uppercase(prefix + fieldName) in the process environment and reports
found iff that variable exists — even when its value is empty — with
the variable's value; its Err() is always nil. -/
theorem envLookupFoundIffExists (environ : String → Option String)
    (pfx : String) (f : Field) :
    Source.Err (Source.envSrc pfx) = none
    ∧ Source.Lookup environ (Source.envSrc pfx) f =
        ((environ (strToUpper (pfx ++ f.name))).getD "",
         (environ (strToUpper (pfx ++ f.name))).isSome) := by
  refine ⟨rfl, ?_⟩
  cases h : environ (strToUpper (pfx ++ f.name)) <;> simp [Source.Lookup, h]

/-- C5: the stream adapter built by FromReader holds exactly the map
{lowercase(key): value} over the lines matching the key=value pattern,
later lines with the same lowercased key overriding earlier ones
(`lastValue`); a line without '=' contributes nothing; a map source's
Lookup reports found iff the lowercased field name is a key of the map,
so the line novalue= makes key novalue found with the empty-string
value, distinct from not found. -/
theorem fromReaderMapSpec (lines : List String) :
    (∀ k, readerMap lines k = lastValue k (lines.filterMap parseLine))
    ∧ (∀ l, (∀ c ∈ l.data, c ≠ '=') → parseLine l = none)
    ∧ FromReader lines none = FromMap (readerMap lines)
    ∧ (∀ (environ m : String → Option String) (f : Field),
        Source.Lookup environ (Source.mapSrc m) f =
          ((m (strToLower f.name)).getD "", (m (strToLower f.name)).isSome))
    ∧ readerMap ["novalue="] "novalue" = some ""
    ∧ readerMap ["onlykey"] "novalue" = none := by
  refine ⟨fun k => ?_, fun l h => parseLine_noEq l h, rfl, fun environ m f => ?_, rfl, rfl⟩
  · rw [readerMap, readerFold_lastValue]
    cases lastValue k (lines.filterMap parseLine) <;> rfl
  · cases h : m (strToLower f.name) <;> simp [Source.Lookup, h]

/-- Witness for C5: onlykey is ignored, the map over [x=1, X=2,
onlykey] equals the last-match map at key x, and novalue= yields the
empty-string value. -/
theorem fromReaderMapSpec_w :
    parseLine "onlykey" = none
    ∧ readerMap ["x=1", "X=2", "onlykey"] "x" =
        lastValue "x" (["x=1", "X=2", "onlykey"].filterMap parseLine)
    ∧ readerMap ["novalue="] "novalue" = some "" :=
  ⟨(fromReaderMapSpec []).2.1 "onlykey" (by decide),
   (fromReaderMapSpec ["x=1", "X=2", "onlykey"]).1 "x",
   (fromReaderMapSpec []).2.2.2.2.1⟩

/-- C6: a settable field that no source finds and that carries no
default tag is left at its pre-call value and produces no error: its
binding step returns it unchanged, and a Load of a record made of that
field succeeds with the record unchanged whenever no source carries a
terminal error. -/
theorem loadNotFoundNoDefaultSkips (P : Parsers) (environ : String → Option String)
    (sources : List Source) (tn : String) (f : Field)
    (hset : f.canSet = true)
    (hnf : (scannerLookup environ sources f).2 = false)
    (hnd : f.defaultTag = none) :
    bindField P environ sources tn f = Except.ok f
    ∧ (firstErr sources = none →
        Load P environ (Dest.ptrToStruct ⟨tn, [f]⟩) sources =
          LoadResult.ok ⟨tn, [f]⟩) := by
  have hskip : bindField P environ sources tn f = Except.ok f :=
    bindField_skip P environ sources tn f hset hnf (by rw [hnd]; rfl)
  refine ⟨hskip, fun hfe => ?_⟩
  cases sources with
  | nil => rfl
  | cons s ss => simp [Load, scan, hfe, scanFields, hskip]

/-- Witness for C6: the Missing field (pre-call value 7, no default
tag) is unchanged and the bind succeeds. -/
theorem loadNotFoundNoDefaultSkips_w :
    bindField noParsers emptyEnv [srcFields] "Conf" fieldMissing =
      Except.ok fieldMissing
    ∧ Load noParsers emptyEnv (Dest.ptrToStruct ⟨"Conf", [fieldMissing]⟩) [srcFields] =
        LoadResult.ok ⟨"Conf", [fieldMissing]⟩ := by
  have h := loadNotFoundNoDefaultSkips noParsers emptyEnv [srcFields] "Conf"
    fieldMissing rfl (by rfl) rfl
  exact ⟨h.1, h.2 rfl⟩

/-- C7: for a path that cannot be opened, FromFile returns a source
whose Err() is nil and whose Lookup reports not found for every field;
a bind using it succeeds with the record unchanged (stated for records
without default tags, which would be filled from the tag, not from the
file, and can themselves fail to convert). -/
theorem fromFileMissingActsEmpty (P : Parsers) (environ : String → Option String)
    (r : Record) (hnd : ∀ f ∈ r.fields, f.defaultTag = none) :
    Source.Err (FromFile none) = none
    ∧ (∀ f, Source.Lookup environ (FromFile none) f = ("", false))
    ∧ Load P environ (Dest.ptrToStruct r) [FromFile none] = LoadResult.ok r := by
  refine ⟨rfl, fun f => rfl, ?_⟩
  have key : ∀ fs : List Field, (∀ f ∈ fs, f.defaultTag = none) →
      scanFields P environ [FromFile none] r.typeName fs = (fs, none) := by
    intro fs h
    induction fs with
    | nil => rfl
    | cons g gs ih =>
        have hg : bindField P environ [FromFile none] r.typeName g = Except.ok g := by
          cases hcs : g.canSet with
          | false => exact bindField_nonSettable _ _ _ _ _ hcs
          | true =>
              refine bindField_skip _ _ _ _ _ hcs rfl ?_
              rw [h g (List.mem_cons_self g gs)]
              rfl
        simp only [scanFields, hg, ih fun u hu => h u (List.mem_cons_of_mem g hu)]
  have hk := key r.fields hnd
  cases r with
  | mk tn fs =>
      simp only [FromFile, FromMap] at hk
      simp [Load, scan, firstErr, FromFile, FromMap, Source.Err, hk]

/-- Witness for C7: a record with a settable and a non-settable field,
no default tags, binds to itself from the missing-file source. -/
theorem fromFileMissingActsEmpty_w :
    Source.Err (FromFile none) = none
    ∧ Load noParsers emptyEnv (Dest.ptrToStruct recNoDefaults) [FromFile none] =
        LoadResult.ok recNoDefaults := by
  have h := fromFileMissingActsEmpty noParsers emptyEnv recNoDefaults (by decide)
  exact ⟨h.1, h.2.2⟩

end Appconfig
